import Mathlib

/-!
# Verification of the hex-tile world simulator core

Shallow embedding of the core components of the hex-tiled multiplayer world
simulator: the `Session` wire-framing receive loop (`src/Session.py`), the
client/server reconciliation dispatch (`src/src/StateManager.py`,
`src/src/server.py`), the axial-hex / pixel geometry (`src/src/HxPx.py`),
and the movement/collision resolution (`src/src/Scene/Scene.py`).

Numeric conventions: the Python source computes over floats; the geometry and
movement code is embedded over `ℝ` (the idealisation the spec's properties
quantify over), while the protocol code, which only moves integers, bytes and
queue entries around, is embedded computably so that concrete runs can be
checked by `decide`.
-/

namespace HexMMO

/-! ## Wire protocol: the `Session.sync` receive loop (src/Session.py)

The loop accumulates bytes in `rest`, and for each buffered chunk walks an
index `i` through the buffer: a 2-byte token equal to `OK` ends the batch;
otherwise the token is read as a big-endian length `sz`
(`int.from_bytes(tok, 'big')` accepts a 1-byte slice), the guard is
`len(it[i:]) < sz`, the payload slice `it[i:i+sz]` is decoded (decode errors
are logged and skipped), a `None` client id is replaced by the session's own
thread id, and the tuple is appended to the inbound queue.

The deserializer (`quickle`'s `DECODER.loads`) is an external library; it is a
parameter `dec` here, returning `none` where the Python code raises. -/

/-- The 2-byte `OK` sentinel `b'\x4f\x4b'`. -/
def OKbytes : List Nat := [0x4f, 0x4b]

/-- `int.from_bytes(tok, 'big', signed=False)` over the (possibly shorter than
2-byte) slice `tok`. -/
def bytesToNat (bs : List Nat) : Nat := bs.foldl (fun a b => a * 256 + b) 0

variable {E : Type}

/-- A decoded wire tuple `(client_id_or_null, event, sequence_or_null)`. -/
abbrev WireMsg (E : Type) := Option Nat × E × Option Nat

/-- Fuel-indexed embedding of the inner `while len(it[i:]) > 0` loop of
`Session.sync` (src/Session.py lines 41-64).  The result is
`(appended tuples, rest, batch done)`:

* an empty buffer ends the loop with `rest = it[i:] = []` and no `OK` seen;
* a buffer whose first 2-byte token is `OK` ends the batch, `rest = it[i+2:]`;
* otherwise the token is read as the length `sz`; if `len(it[i:]) < sz` the
  loop breaks keeping the buffer as `rest`; else `i` advances by `2 + sz`,
  the payload slice is decoded, a failed decode is skipped (`continue`), and
  a decoded tuple has a `None` client id replaced by the session thread id
  `selfTid` before being appended.

The loop advances `i` by at least one byte per iteration, so fuel equal to
the buffer length is always sufficient (`procLoop` below). -/
def procLoopF (selfTid : Nat) (dec : List Nat → Option (WireMsg E)) :
    Nat → List Nat → List (WireMsg E) × List Nat × Bool
  | _, [] => ([], [], false)
  | 0, buf => ([], buf, false)
  | fuel+1, buf =>
    let tok := buf.take 2
    if tok = OKbytes then ([], buf.drop 2, true)
    else
      let sz := bytesToNat tok
      if buf.length < sz then ([], buf, false)
      else
        let payload := (buf.drop 2).take sz
        let rest := (buf.drop 2).drop sz
        match dec payload with
        | none => procLoopF selfTid dec fuel rest
        | some (tid, evt, seq) =>
          let tid2 : Option Nat := if tid = none then some selfTid else tid
          let r := procLoopF selfTid dec fuel rest
          ((tid2, evt, seq) :: r.1, r.2)

/-- One pass of the receive loop over a fully buffered chunk. -/
def procLoop (selfTid : Nat) (dec : List Nat → Option (WireMsg E))
    (buf : List Nat) : List (WireMsg E) × List Nat × Bool :=
  procLoopF selfTid dec buf.length buf

/-- The outer read loop of `Session.sync` for one batch: each socket read
appends a chunk to the carried `rest`, the buffer is processed, and the batch
ends when the `OK` sentinel is consumed.  Returns the tuples appended to the
inbound queue and whether the batch completed. -/
def recvBatch (selfTid : Nat) (dec : List Nat → Option (WireMsg E)) :
    List Nat → List (List Nat) → List (WireMsg E) × Bool
  | _, [] => ([], false)
  | rest, c :: cs =>
    let r := procLoop selfTid dec (rest ++ c)
    if r.2.2 then (r.1, true)
    else
      let r2 := recvBatch selfTid dec r.2.1 cs
      (r.1 ++ r2.1, r2.2)

/-- `[length][payload]` framing: 2-byte big-endian length prefix. -/
def encodeFrame (p : List Nat) : List Nat := [p.length / 256, p.length % 256] ++ p

/-- A sequence of frames on the wire. -/
def encodeFrames (ps : List (List Nat)) : List Nat := (ps.map encodeFrame).flatten

/-- A concrete test codec: a payload is a single byte `k`, decoding to the
tuple `(None, k, None)`; anything else (in particular a truncated or empty
payload, where `quickle` raises) fails to decode. -/
def decTest : List Nat → Option (WireMsg Nat) :=
  fun bs => match bs with
  | [k] => some (none, k, none)
  | _ => none

/-! ## Reconciliation dispatch (src/src/StateManager.py, src/src/server.py)

Events are a tagged union (src/src/Event.py).  For the dispatch logic only
the tag and the `dt` field of a movement event matter; `evt.dt = 0` on the
acknowledged event is an attribute assignment that succeeds for every tag in
the Python source, so every embedded event carries a `dt`. -/

/-- Tags of the event union in src/src/Event.py. -/
inductive EvTag
  | moveActor | loadActor | unloadActor | initConnection
  | loadScene | changeTile | discoverTile
deriving DecidableEq

/-- An event as seen by the dispatch code: its tag and its time-delta. -/
structure CEvt where
  tag : EvTag
  dt : ℚ
deriving DecidableEq

/-- The `while self.evt_deque: i, it = popleft(); if i == seq: break else warn`
loop of `StateManager.on_do` (src/src/StateManager.py lines 89-92): pop the
pending FIFO up to and including the entry whose sequence is `s`; earlier
entries are dropped (warned about, never an error); if `s` never occurs the
whole deque is drained. -/
def popThrough (s : ℕ) : List (ℕ × CEvt) → List (ℕ × CEvt)
  | [] => []
  | (i, _) :: rest => if i = s then rest else popThrough s rest

/-- `it.dt = 0` applied in place to every pending `ActorMoveEvent`
(src/src/StateManager.py line 96); the mutation persists in the deque. -/
def zeroMoves (dq : List (ℕ × CEvt)) : List (ℕ × CEvt) :=
  dq.map (fun p => (p.1, if p.2.tag = EvTag.moveActor then {p.2 with dt := 0} else p.2))

/-- Client-side `StateManager.on_do(tid, evt, broadcast, seq)`
(src/src/StateManager.py lines 87-98).  Client ids are nullable as on the
wire.  Returns the list of `do_…` dispatches performed, as `(tid, event)`
pairs in order, and the pending deque afterwards:

* if `seq` is non-null and `tid` equals the client's own id: pop the deque
  through `seq`, zero the acknowledged event's `dt`, dispatch it, then
  dispatch every still-pending event in order, zeroing `dt` on pending
  movement events in place (they stay in the deque);
* otherwise dispatch the event directly, deque untouched. -/
def smOnDo (selfTid : Option ℕ) (deque : List (ℕ × CEvt)) (tid : Option ℕ)
    (evt : CEvt) (seq : Option ℕ) : List (Option ℕ × CEvt) × List (ℕ × CEvt) :=
  match seq with
  | some s =>
    if tid = selfTid then
      let rest := zeroMoves (popThrough s deque)
      ((tid, {evt with dt := 0}) :: rest.map (fun p => (tid, p.2)), rest)
    else ([(tid, evt)], deque)
  | none => ([(tid, evt)], deque)

/-- A server session's outbound queue, keyed by its thread id. -/
abbrev Sessions := List (ℕ × List (Option ℕ × CEvt × Option ℕ))

/-- `Server.on_send(tid, evt, seq, broadcast)` (src/src/server.py lines 36-40).
On broadcast, every session gets the event, with the sequence number kept only
where `it.tid == tid` (Python `None == int` is false, so a null originating id
matches no session).  Otherwise `self.sessions[tid]` alone gets it; a missing
key raises `KeyError`, modelled as `none`. -/
def serverOnSend (sessions : Sessions) (tid : Option ℕ) (evt : CEvt)
    (seq : Option ℕ) (broadcast : Bool) : Option Sessions :=
  if broadcast then
    some (sessions.map
      (fun s => (s.1, s.2 ++ [(tid, evt, if some s.1 = tid then seq else none)])))
  else
    if sessions.any (fun s => some s.1 = tid) then
      some (sessions.map
        (fun s => if some s.1 = tid then (s.1, s.2 ++ [(tid, evt, seq)]) else s))
    else none

/-! ## Hex/pixel geometry (src/src/HxPx.py, src/Config.py)

The float arithmetic of the source is idealised over `ℝ`. -/

noncomputable section Geometry

open Classical in
/-- Python 3's `round()` (banker's rounding, half to even) on an exact real
value, as applied by `hex_round` and the `TILE_SIZE_W` constant. -/
def pyRound (x : ℝ) : ℤ :=
  if x - ⌊x⌋ < 1/2 then ⌊x⌋
  else if 1/2 < x - ⌊x⌋ then ⌊x⌋ + 1
  else if 2 ∣ ⌊x⌋ then ⌊x⌋ else ⌊x⌋ + 1

/-- `SQRT3 = sqrt(3)` (src/Config.py). -/
def sqrt3 : ℝ := Real.sqrt 3

/-- `ISO_SCALE = 3/4` (src/Config.py). -/
def ISO_SCALE : ℝ := 3/4

/-- `TILE_SIZE = 24` (src/Config.py). -/
def TILE_SIZE : ℝ := 24

/-- `TILE_SIZE_H = TILE_SIZE` (src/Config.py). -/
def TILE_SIZE_H : ℝ := TILE_SIZE

/-- `TILE_SIZE_W = round(TILE_SIZE * SQRT3) / SQRT3` (src/Config.py). -/
def TILE_SIZE_W : ℝ := (pyRound (TILE_SIZE * sqrt3) : ℝ) / sqrt3

/-- `TILE_RISE = ISO_SCALE*(TILE_SIZE_H*2/3)` (src/Config.py). -/
def TILE_RISE : ℝ := ISO_SCALE * (TILE_SIZE_H * 2 / 3)

/-- An orientation: forward matrix `f0..f3`, backward matrix `b0..b3`, and the
vertex phase (src/Config.py `ORIENTATION_PNTY` / `ORIENTATION_FLAT`). -/
structure Orientation where
  f0 : ℝ
  f1 : ℝ
  f2 : ℝ
  f3 : ℝ
  b0 : ℝ
  b1 : ℝ
  b2 : ℝ
  b3 : ℝ
  phase : ℝ

/-- `ORIENTATION_PNTY` (src/Config.py), the default of every conversion. -/
def ORIENTATION_PNTY : Orientation :=
  ⟨sqrt3, sqrt3/2, 0, 3/2, sqrt3/3, -1/3, 0, 2/3, 0.5⟩

/-- Axial hex coordinate `(q, r, z)`: integer axial address plus integer
layer (src/src/HxPx.py class `Hx`; the data model of spec §3). -/
structure Hx where
  q : ℤ
  r : ℤ
  z : ℤ
deriving DecidableEq

instance : Add Hx := ⟨fun a b => ⟨a.q + b.q, a.r + b.r, a.z + b.z⟩⟩
instance : Sub Hx := ⟨fun a b => ⟨a.q - b.q, a.r - b.r, a.z - b.z⟩⟩

/-- Pixel coordinate (src/src/HxPx.py class `Px`).  `x`, `y` are render-space
floats; the `z` slot carries the discrete layer index: on every code path
modelled here it is written only from hex layers (`Hx.z`, `math.floor`
results), so it is embedded as `ℤ`. -/
structure Px where
  x : ℝ
  y : ℝ
  z : ℤ

instance : Add Px := ⟨fun a b => ⟨a.x + b.x, a.y + b.y, a.z + b.z⟩⟩
instance : Sub Px := ⟨fun a b => ⟨a.x - b.x, a.y - b.y, a.z - b.z⟩⟩

/-- `hex_round` (src/src/HxPx.py lines 6-19) computed as the full cube
triple: round `q`, `r`, `s = -q-r` independently, then recompute the axis of
largest rounding error from the other two. -/
def hexRoundTriple (aq ar : ℝ) : ℤ × ℤ × ℤ :=
  let q := pyRound aq
  let r := pyRound ar
  let s := pyRound (-aq - ar)
  let q_diff := |(q : ℝ) - aq|
  let r_diff := |(r : ℝ) - ar|
  let s_diff := |(s : ℝ) - (-aq - ar)|
  if q_diff > r_diff ∧ q_diff > s_diff then (-r - s, r, s)
  else if r_diff > s_diff then (q, -q - s, s)
  else (q, r, -q - r)

/-- `hex_round(aq, ar, az)` (src/src/HxPx.py lines 6-19): the returned hex is
`Hx(q, r, az)` from the corrected triple (the corrected `s` is not stored). -/
def hex_round (aq ar : ℝ) (az : ℤ) : Hx :=
  ⟨(hexRoundTriple aq ar).1, (hexRoundTriple aq ar).2.1, az⟩

/-- `Hx.into_px()` with the default `tile_size = TILE_SIZE`,
`orientation = ORIENTATION_PNTY` (src/src/HxPx.py lines 72-76). -/
def Hx.into_px (h : Hx) : Px :=
  ⟨(ORIENTATION_PNTY.f0 * h.q + ORIENTATION_PNTY.f1 * h.r) * TILE_SIZE_W,
   (ORIENTATION_PNTY.f2 * h.q + ORIENTATION_PNTY.f3 * h.r) * (ISO_SCALE * TILE_SIZE),
   h.z⟩

/-- `Px.into_hx()` with the default arguments (src/src/HxPx.py lines 35-40):
scale down by `tile_size_w` and `ISO_SCALE*tile_size`, apply the backward
matrix, and cube-round; the pixel's `z` passes through as the layer. -/
def Px.into_hx (p : Px) : Hx :=
  hex_round
    (ORIENTATION_PNTY.b0 * (p.x / TILE_SIZE_W) +
      ORIENTATION_PNTY.b1 * (p.y / (ISO_SCALE * TILE_SIZE)))
    (ORIENTATION_PNTY.b2 * (p.x / TILE_SIZE_W) +
      ORIENTATION_PNTY.b3 * (p.y / (ISO_SCALE * TILE_SIZE)))
    p.z

end Geometry

/-! ## Movement resolution (src/src/Scene/Scene.py `Impl.try_move_actor`)

The convex-polygon overlap test comes from the external `collision` library;
it is a parameter `collide`, applied to the tentative actor position (the
actor's collider is a fixed polygon centred there) and the candidate tile
(whose collider is a fixed polygon centred on the tile's pixel position).
The tile map `self.tiles` is a lookup function on hexes. -/

noncomputable section Movement

/-- The fixed 6-neighbor ring (src/src/Scene/Scene.py line 15). -/
def NEIGHBORS : List Hx := [⟨1,0,0⟩, ⟨1,-1,0⟩, ⟨0,-1,0⟩, ⟨-1,0,0⟩, ⟨-1,1,0⟩, ⟨0,1,0⟩]

/-- `FLAG_SOLID = 1 << 0` (src/Config.py). -/
def FLAG_SOLID : ℕ := 1

/-- A tile as the movement code sees it: its flag bits, whether a sprite is
attached (`it.sprite is not None`), and its hex address `it.hx` (which also
fixes its collider position `it.collider.pos = hx.into_px()`). -/
structure TileT where
  flags : ℕ
  sprite : Bool
  hx : Hx
deriving DecidableEq

/-- `it.flags & FLAG_SOLID` as a Bool. -/
def isSolidB (t : TileT) : Bool := t.flags &&& FLAG_SOLID ≠ 0

/-- The actor-state fields read and written by `try_move_actor`
(src/src/Actor.py class `State`): `air_time` is `None` when grounded. -/
structure ActorState where
  height : ℕ
  heading : Hx
  speed : ℝ
  vertical : ℝ
  air_dz : ℝ
  air_time : Option ℝ
  px : Px

open Classical in
/-- `cos(atan2(y, x))`: `x / hypot(x, y)`, and `1` at the origin
(Python's `atan2(0, 0) = 0`). -/
def dirCos (y x : ℝ) : ℝ :=
  if x = 0 ∧ y = 0 then 1 else x / Real.sqrt (x^2 + y^2)

open Classical in
/-- `sin(atan2(y, x))`: `y / hypot(x, y)`, and `0` at the origin. -/
def dirSin (y x : ℝ) : ℝ :=
  if x = 0 ∧ y = 0 then 0 else y / Real.sqrt (x^2 + y^2)

/-- Lines 47-53: the tentative new pixel.  From the current pixel, aim at the
pixel centre of `current hex + heading` and step `speed*dt` along that angle,
the `y` component compressed by `ISO_SCALE`. -/
def tentativePx (state evtA : ActorState) (dt : ℝ) : Px :=
  let px := state.px
  let heading_px := (px.into_hx + evtA.heading).into_px
  let ho := heading_px - px
  px + ⟨state.speed * dt * dirCos ho.y ho.x,
        ISO_SCALE * (state.speed * dt) * dirSin ho.y ho.x, 0⟩

/-- Python `range(c, f, -1)` over integers: `[c, c-1, …, f+1]`. -/
def descRange (c f : ℤ) : List ℤ := (List.range (c - f).toNat).map (fun i => c - i)

open Classical in
/-- Lines 55-80 of `try_move_actor`: the vertical (air) bookkeeping.
Takes the authoritative `state`, the event's actor record `evtA`, the event
`dt` and the tentative pixel; returns the updated event actor record and the
(possibly z-adjusted) tentative pixel.

* lines 55-57: grounded and not an explicit jump trigger
  (`evt.actor.air_time == 0`) ⇒ reset the event's `air_time`/`air_dz`;
* lines 59-63: airborne and more than one layer up ⇒ land on a SOLID tile
  `floor(air_dz)` layers above the tentative hex if there is one;
* lines 65-73: airborne at or below ground offset ⇒ scan layers from
  `ceil(air_dz + dt*speed/(TILE_RISE*2))` down to just above `floor(air_dz)`
  for a SOLID tile to land on (`air_time` becomes `None`);
* lines 74-78: grounded over a hex with no SOLID tile ⇒ become airborne with
  `air_time = vertical*(TILE_RISE*2)/speed` and `air_dz = 0`.

(Line 80's `evt.actor.air_dz is None` guard is the identity here: `air_dz`
is a plain real in the embedded state.) -/
def tryMoveAir (tiles : Hx → Option TileT) (state evtA : ActorState) (dt : ℝ)
    (newPx : Px) : ActorState × Px :=
  let a1 := if state.air_time = none ∧ evtA.air_time ≠ some 0
    then {evtA with air_time := none, air_dz := 0} else evtA
  let step2 : ActorState × Px :=
    if state.air_time ≠ none ∧ state.air_dz > 1 then
      match tiles (newPx.into_hx + (⟨0, 0, ⌊state.air_dz⌋⟩ : Hx)) with
      | some t =>
        if isSolidB t then
          ({a1 with air_dz := state.air_dz - ⌊state.air_dz⌋},
           {newPx with z := newPx.z + ⌊state.air_dz⌋})
        else (a1, newPx)
      | none => (a1, newPx)
    else (a1, newPx)
  let a2 := step2.1
  let px2 := step2.2
  if state.air_dz ≤ 0 then
    match state.air_time with
    | some _ =>
      let cands := (descRange ⌈state.air_dz + dt * state.speed / (TILE_RISE * 2)⌉
          ⌊state.air_dz⌋).map (fun z => tiles (px2.into_hx + (⟨0, 0, z⟩ : Hx)))
      match cands.find? (fun o => o.elim false isSolidB) with
      | some (some t) =>
        ({a2 with air_dz := 0, air_time := none}, {px2 with z := t.hx.z})
      | _ => (a2, px2)
    | none =>
      match tiles px2.into_hx with
      | some t =>
        if isSolidB t then (a2, px2)
        else
          ({a2 with air_time := some (state.vertical * (TILE_RISE * 2) / state.speed),
                    air_dz := 0}, px2)
      | none =>
        ({a2 with air_time := some (state.vertical * (TILE_RISE * 2) / state.speed),
                  air_dz := 0}, px2)
  else (a2, px2)

/-- The neighbor scan list of line 85: `it + Hx(0, 0, z+1+max(0, ⌊air_dz⌋))`
for `it` in `NEIGHBORS` (outer) and `z` in `range(height)` (inner). -/
def scanList (height : ℕ) (k : ℤ) : List Hx :=
  NEIGHBORS.flatMap (fun nb => (List.range height).map
    (fun z => nb + (⟨0, 0, (z : ℤ) + 1 + k⟩ : Hx)))

open Classical in
/-- Lines 85-95: walk the neighbor ring; on the first occupied, sprite-bearing
neighbor the actor's tentative polygon overlaps:

* if that neighbor is the heading target up to layer
  (`heading_hx == it.hx - Hx(0, 0, it.hx.z - heading_hx.z)`), keep the
  pre-move `x, y` (the fall/jump `z` stays);
* otherwise re-aim away from the obstacle's collider centre and re-step once.

No overlap anywhere leaves the tentative pixel unchanged. -/
def collideScan (collide : ℝ → ℝ → TileT → Bool) (tiles : Hx → Option TileT)
    (hx heading_hx : Hx) (heading_px px : Px) (speed dt : ℝ) (newPx : Px) :
    List Hx → Px
  | [] => newPx
  | nb :: rest =>
    match tiles (hx + nb) with
    | some t =>
      if t.sprite ∧ collide newPx.x newPx.y t then
        if heading_hx = ⟨t.hx.q, t.hx.r, heading_hx.z⟩ then ⟨px.x, px.y, newPx.z⟩
        else
          let ho := heading_px - ⟨t.hx.into_px.x, t.hx.into_px.y, 0⟩
          px + ⟨speed * dt * dirCos ho.y ho.x,
                ISO_SCALE * (speed * dt) * dirSin ho.y ho.x, 0⟩
      else collideScan collide tiles hx heading_hx heading_px px speed dt newPx rest
    | none => collideScan collide tiles hx heading_hx heading_px px speed dt newPx rest

/-- `Impl.try_move_actor` (src/src/Scene/Scene.py lines 41-98) given the
actor's current state `state` and the event's actor record `evtA`: compute the
tentative pixel, do the air bookkeeping, run the collision scan, and emit the
event's actor record with the resulting pixel (the `on_do` dispatch of
line 98 carries exactly this record). -/
def tryMoveActor (collide : ℝ → ℝ → TileT → Bool) (tiles : Hx → Option TileT)
    (state evtA : ActorState) (dt : ℝ) : ActorState :=
  let px := state.px
  let hx := px.into_hx
  let heading_hx := hx + evtA.heading
  let heading_px := heading_hx.into_px
  let anp := tryMoveAir tiles state evtA dt (tentativePx state evtA dt)
  let res := collideScan collide tiles hx heading_hx heading_px px state.speed dt
    anp.2 (scanList state.height (max 0 ⌊anp.1.air_dz⌋))
  {anp.1 with px := res}

end Movement

/-! ## Concrete instances used to exercise the movement code -/

noncomputable section Instances

/-- A neighbor `nb` of `hx` overlaps the actor polygon at `np`: an occupied,
sprite-bearing tile there for which the external collision test fires. -/
def overlapAt (collide : ℝ → ℝ → TileT → Bool) (tiles : Hx → Option TileT)
    (hx : Hx) (np : Px) (nb : Hx) : Prop :=
  ∃ t, tiles (hx + nb) = some t ∧ t.sprite = true ∧ collide np.x np.y t = true

/-- A concrete grounded actor (Scenario C): standing at the origin, grounded,
default-like speed 120 and vertical 6/5. -/
def st4 : ActorState :=
  { height := 1, heading := ⟨0, 0, 0⟩, speed := 120, vertical := 6/5,
    air_dz := 0, air_time := none, px := ⟨0, 0, 0⟩ }

/-- A concrete airborne actor at the origin heading `(1, 0)` (Scenario B). -/
def st6 : ActorState :=
  { height := 1, heading := ⟨1, 0, 0⟩, speed := 120, vertical := 6/5,
    air_dz := 1/2, air_time := some 1, px := ⟨0, 0, 0⟩ }

/-- A SOLID, sprite-bearing tile at hex `(1, 0, 1)`. -/
def t6 : TileT := { flags := 1, sprite := true, hx := ⟨1, 0, 1⟩ }

/-- A tile map holding exactly `t6`. -/
def tiles6 : Hx → Option TileT :=
  fun h => if h = (⟨1, 0, 1⟩ : Hx) then some t6 else none

/-- A concrete grounded actor at the origin heading `(1, 0)` with speed 120
(Scenario A). -/
def st7 : ActorState :=
  { height := 3, heading := ⟨1, 0, 0⟩, speed := 120, vertical := 6/5,
    air_dz := 0, air_time := none, px := ⟨0, 0, 0⟩ }

end Instances

/-! ## Theorems: reconciliation dispatch -/

/-- Popping through the first occurrence of `s` leaves exactly the entries
after it. -/
theorem popThrough_first (s : ℕ) (pre post : List (ℕ × CEvt)) (e : CEvt)
    (h : ∀ p ∈ pre, p.1 ≠ s) :
    popThrough s (pre ++ (s, e) :: post) = post := by
  induction pre with
  | nil => simp [popThrough]
  | cons hd tl ih =>
    have hne : hd.1 ≠ s := h hd (by simp)
    simpa [popThrough, hne] using ih (fun p hp => h p (by simp [hp]))

/-- Claim C2: on the client, a "do" event with a non-null sequence number and
the client's own id pops the pending FIFO up to and including that sequence
(given the sequence is pending, the earlier entries are discarded), applies
the authoritative event, and re-dispatches every still-pending event in FIFO
order with movement time-deltas zeroed; a "do" with a null sequence or a
foreign client id is applied directly with no popping and no replay. -/
theorem reconciliation_ack_replay (selfTid : Option ℕ) :
    (∀ (pre post : List (ℕ × CEvt)) (s : ℕ) (e evt : CEvt),
      (∀ p ∈ pre, p.1 ≠ s) →
      smOnDo selfTid (pre ++ (s, e) :: post) selfTid evt (some s) =
        ((selfTid, {evt with dt := 0}) ::
          (zeroMoves post).map (fun p => (selfTid, p.2)), zeroMoves post))
    ∧ (∀ (dq : List (ℕ × CEvt)) (tid : Option ℕ) (evt : CEvt) (seq : Option ℕ),
      seq = none ∨ tid ≠ selfTid →
      smOnDo selfTid dq tid evt seq = ([(tid, evt)], dq)) := by
  constructor
  · intro pre post s e evt h
    simp [smOnDo, popThrough_first s pre post e h]
  · rintro dq tid evt seq (rfl | hne)
    · simp [smOnDo]
    · cases seq with
      | none => simp [smOnDo]
      | some s => simp [smOnDo, hne]

/-- Witness for `reconciliation_ack_replay`: a pending FIFO `[0, 1, 2, 3]`
acknowledged at sequence 1 drops entries 0 and 1 and replays 2 and 3 with
movement deltas zeroed. -/
theorem reconciliation_ack_replay_witness :
    smOnDo (some 7)
        ([(0, ⟨EvTag.loadActor, 0⟩)] ++
          (1, ⟨EvTag.moveActor, 3⟩) :: [(2, ⟨EvTag.moveActor, 5⟩), (3, ⟨EvTag.loadScene, 1⟩)])
        (some 7) ⟨EvTag.moveActor, 4⟩ (some 1) =
      ([(some 7, ⟨EvTag.moveActor, 0⟩), (some 7, ⟨EvTag.moveActor, 0⟩),
        (some 7, ⟨EvTag.loadScene, 1⟩)],
       [(2, ⟨EvTag.moveActor, 0⟩), (3, ⟨EvTag.loadScene, 1⟩)]) := by
  have h := (reconciliation_ack_replay (some 7)).1
    [(0, ⟨EvTag.loadActor, 0⟩)] [(2, ⟨EvTag.moveActor, 5⟩), (3, ⟨EvTag.loadScene, 1⟩)]
    1 ⟨EvTag.moveActor, 3⟩ ⟨EvTag.moveActor, 4⟩ (by decide)
  exact h.trans (by decide)

/-- Pointwise description of a mapped list. -/
theorem forall₂_map_self {α β : Type} (l : List α) (f : α → β)
    (R : α → β → Prop) (h : ∀ a, R a (f a)) : List.Forall₂ R l (l.map f) := by
  induction l with
  | nil => simp
  | cons hd tl ih => exact List.Forall₂.cons (h hd) ih

/-- Claim C9: a broadcast "do" reaches every session, carrying the original
sequence number only on the session whose id equals the originating client id
and a null sequence everywhere else; a non-broadcast result is appended only
to the originating client's session, all other sessions untouched. -/
theorem server_broadcast_seq_routing :
    (∀ (sessions : Sessions) (tid : Option ℕ) (evt : CEvt) (seq : Option ℕ)
        (res : Sessions),
      serverOnSend sessions tid evt seq true = some res →
      List.Forall₂ (fun s r =>
        r = (s.1, s.2 ++ [(tid, evt, if some s.1 = tid then seq else none)]))
        sessions res)
    ∧ (∀ (sessions : Sessions) (tid : Option ℕ) (evt : CEvt) (seq : Option ℕ)
        (res : Sessions),
      serverOnSend sessions tid evt seq false = some res →
      List.Forall₂ (fun s r =>
        if some s.1 = tid then r = (s.1, s.2 ++ [(tid, evt, seq)]) else r = s)
        sessions res) := by
  constructor
  · intro sessions tid evt seq res h
    simp only [serverOnSend, if_true, Option.some_inj] at h
    subst h
    exact forall₂_map_self _ _ _ (fun a => rfl)
  · intro sessions tid evt seq res h
    simp only [serverOnSend, Bool.false_eq_true, if_false] at h
    split at h
    · rw [Option.some_inj] at h
      subst h
      refine forall₂_map_self _ _ _ (fun a => ?_)
      by_cases ha : some a.1 = tid <;> simp [ha]
    · exact absurd h (by simp)

/-- Witness for `server_broadcast_seq_routing`: two sessions 1 and 2, a
broadcast from client 1 with sequence 5 keeps the sequence only on session 1. -/
theorem server_broadcast_seq_routing_witness :
    List.Forall₂ (fun (s : ℕ × List (Option ℕ × CEvt × Option ℕ)) r =>
        r = (s.1, s.2 ++ [(some 1, ⟨EvTag.changeTile, 0⟩,
              if some s.1 = some 1 then some 5 else none)]))
      [(1, []), (2, [])]
      [(1, [(some 1, ⟨EvTag.changeTile, 0⟩, some 5)]),
       (2, [(some 1, ⟨EvTag.changeTile, 0⟩, none)])] :=
  (server_broadcast_seq_routing).1 [(1, []), (2, [])] (some 1)
    ⟨EvTag.changeTile, 0⟩ (some 5) _ (by rfl)

/-! ## Theorems: the Session receive loop -/

/-- One frame step of the receive loop: a complete well-formed frame at the
head of the buffer is consumed whole; its payload is decoded and appended
(with the null-id substitution) when the decoder succeeds, and skipped when
it fails, the stream position advancing by the declared length either way. -/
theorem procLoopF_frame {E : Type} (selfTid : ℕ)
    (dec : List Nat → Option (WireMsg E)) (p R : List ℕ) (f : ℕ)
    (hlt : p.length < 65536) (hok : p.length ≠ 20299) :
    procLoopF selfTid dec (f + 1) (encodeFrame p ++ R) =
      (match dec p with
       | none => procLoopF selfTid dec f R
       | some m =>
         ((if m.1 = none then some selfTid else m.1, m.2) ::
            (procLoopF selfTid dec f R).1,
          (procLoopF selfTid dec f R).2)) := by
  have hbuf : encodeFrame p ++ R = p.length / 256 :: p.length % 256 :: (p ++ R) := by
    simp [encodeFrame]
  rw [hbuf]
  have htok : ¬([p.length / 256, p.length % 256] = OKbytes) := by
    intro hc
    simp only [OKbytes, List.cons.injEq, and_true] at hc
    have := Nat.div_add_mod p.length 256
    omega
  have hsz : bytesToNat [p.length / 256, p.length % 256] = p.length := by
    simp only [bytesToNat, List.foldl]
    have := Nat.div_add_mod p.length 256
    omega
  have hlen : ¬((p.length / 256 :: p.length % 256 :: (p ++ R)).length < p.length) := by
    simp only [List.length_cons, List.length_append]
    omega
  simp only [procLoopF, List.take, htok, if_false, hsz, hlen, List.drop,
    List.take_left, List.drop_left]
  cases dec p with
  | none => rfl
  | some m => rfl

/-- Claim C8 (general form, over `procLoopF` with sufficient fuel): a fully
buffered batch of well-formed frames decodes to exactly the tuples of the
frames the decoder accepts, in order; frames the decoder rejects are skipped
without losing stream position, and the batch still completes with the bytes
after the sentinel left over. -/
theorem procLoopF_frames {E : Type} (selfTid : ℕ)
    (dec : List Nat → Option (WireMsg E)) :
    ∀ (frames : List (List ℕ)) (extra : List ℕ) (f : ℕ),
      (∀ p ∈ frames, p.length < 65536 ∧ p.length ≠ 20299) →
      (encodeFrames frames ++ (OKbytes ++ extra)).length ≤ f →
      procLoopF selfTid dec f (encodeFrames frames ++ (OKbytes ++ extra)) =
        (frames.filterMap (fun p => (dec p).map
            (fun m => (if m.1 = none then some selfTid else m.1, m.2))),
         extra, true) := by
  intro frames
  induction frames with
  | nil =>
    intro extra f _ hf
    simp only [encodeFrames, List.map_nil, List.flatten_nil, List.nil_append] at hf ⊢
    have h2 : extra.length + 1 + 1 ≤ f := by simpa [OKbytes] using hf
    obtain ⟨f', rfl⟩ : ∃ f', f = f' + 1 := ⟨f - 1, by omega⟩
    simp [procLoopF, OKbytes, List.filterMap_nil]
  | cons p fs ih =>
    intro extra f hwf hf
    have hfr : encodeFrames (p :: fs) = encodeFrame p ++ encodeFrames fs := by
      simp [encodeFrames]
    rw [hfr, List.append_assoc] at hf ⊢
    have hlen : (encodeFrame p ++ (encodeFrames fs ++ (OKbytes ++ extra))).length =
        2 + p.length + (encodeFrames fs ++ (OKbytes ++ extra)).length := by
      simp [encodeFrame]
      omega
    obtain ⟨f', rfl⟩ : ∃ f', f = f' + 1 := by
      refine ⟨f - 1, ?_⟩
      have : 2 ≤ (encodeFrame p ++ (encodeFrames fs ++ (OKbytes ++ extra))).length := by
        simp [encodeFrame]
      omega
    have hwfp := hwf p (by simp)
    rw [procLoopF_frame selfTid dec p _ f' hwfp.1 hwfp.2]
    have hrest : (encodeFrames fs ++ (OKbytes ++ extra)).length ≤ f' := by
      rw [hlen] at hf
      omega
    have hih := ih extra f' (fun q hq => hwf q (by simp [hq])) hrest
    cases hdec : dec p with
    | none => simp [hih, List.filterMap_cons, hdec]
    | some m => simp [hih, List.filterMap_cons, hdec]

/-- Claim C8: over one pass of the receive loop on a fully buffered stream of
well-formed frames (lengths below 2^16 and distinct from the `OK` value)
followed by the sentinel, a frame whose payload fails to deserialize is
skipped exactly: no tuple is enqueued for it, the position advances past it,
the batch completes (the session survives), and every other frame's tuple is
enqueued in order. -/
theorem decode_failure_skips_one_frame {E : Type} (selfTid : ℕ)
    (dec : List Nat → Option (WireMsg E)) (frames : List (List ℕ))
    (extra : List ℕ)
    (hwf : ∀ p ∈ frames, p.length < 65536 ∧ p.length ≠ 20299) :
    procLoop selfTid dec (encodeFrames frames ++ OKbytes ++ extra) =
      (frames.filterMap (fun p => (dec p).map
          (fun m => (if m.1 = none then some selfTid else m.1, m.2))),
       extra, true) := by
  rw [procLoop, List.append_assoc]
  exact procLoopF_frames selfTid dec frames extra _ hwf (le_refl _)

/-- Witness for `decode_failure_skips_one_frame`: three frames with payloads
`[1]`, `[]`, `[2]` under the test codec (which rejects the empty payload):
the middle frame is skipped, the other two are decoded in order, and the
byte after the sentinel is left in the buffer. -/
theorem decode_failure_skips_one_frame_witness :
    procLoop 7 decTest (encodeFrames [[1], [], [2]] ++ OKbytes ++ [9]) =
      ([(some 7, 1, none), (some 7, 2, none)], [9], true) := by
  have h := decode_failure_skips_one_frame 7 decTest [[1], [], [2]] [9] (by decide)
  exact h.trans (by decide)

/-- Every tuple the loop appends has a non-null client id. -/
theorem procLoopF_tid_not_null {E : Type} (selfTid : ℕ)
    (dec : List Nat → Option (WireMsg E)) :
    ∀ (f : ℕ) (buf : List ℕ) (m : WireMsg E),
      m ∈ (procLoopF selfTid dec f buf).1 → m.1 ≠ none := by
  intro f
  induction f with
  | zero =>
    intro buf m hm
    cases buf <;> simp [procLoopF] at hm
  | succ f ih =>
    intro buf m hm
    cases buf with
    | nil => simp [procLoopF] at hm
    | cons b bs =>
      simp only [procLoopF] at hm
      split at hm
      · simp at hm
      · split at hm
        · simp at hm
        · split at hm
          · exact ih _ m hm
          next tid evt seq hdec =>
            simp only [List.mem_cons] at hm
            rcases hm with rfl | hm
            · by_cases h1 : tid = none <;> simp [h1]
            · exact ih _ m hm

/-- Claim C10: every tuple the Session receive loop appends to the inbound
queue carries a non-null client id — a decoded tuple with a null id gets the
session's own thread id substituted before it is enqueued. -/
theorem inbound_tid_never_null {E : Type} (selfTid : ℕ)
    (dec : List Nat → Option (WireMsg E)) (buf : List ℕ) (m : WireMsg E)
    (hm : m ∈ (procLoop selfTid dec buf).1) : m.1 ≠ none :=
  procLoopF_tid_not_null selfTid dec buf.length buf m hm

/-- Witness for `inbound_tid_never_null`: the frame `[0, 1, 5]` decodes under
the test codec to a tuple with a null client id; the enqueued tuple carries
the session id 7 instead. -/
theorem inbound_tid_never_null_witness :
    ((some 7 : Option ℕ), (5 : ℕ), (none : Option ℕ)) ∈
        (procLoop 7 decTest [0, 1, 5, 0x4f, 0x4b]).1 ∧
      ((some 7 : Option ℕ), (5 : ℕ), (none : Option ℕ)).1 ≠ none :=
  ⟨by decide, inbound_tid_never_null 7 decTest [0, 1, 5, 0x4f, 0x4b] _ (by decide)⟩

/-- Claim C3 fails on the code: the same well-formed byte stream — one frame
of declared length 1 with payload `[5]`, then the `OK` sentinel — decodes to
one tuple when it arrives in a single read but to nothing (and an unfinished
batch) when it arrives one byte per read: the guard `len(it[i:]) < sz`
still counts the 2 length bytes and `int.from_bytes` accepts a 1-byte
slice, so buffered prefix bytes are consumed and lost. -/
theorem chunked_decode_differs :
    recvBatch 7 decTest [] [[0], [1], [5], [0x4f], [0x4b]] ≠
      recvBatch 7 decTest [] [[0, 1, 5, 0x4f, 0x4b]] := by
  decide

/-! ## Theorems: hex/pixel geometry -/

theorem sqrt3_pos : 0 < sqrt3 := Real.sqrt_pos.mpr (by norm_num)

theorem sqrt3_ne_zero : sqrt3 ≠ 0 := ne_of_gt sqrt3_pos

theorem sqrt3_mul_self : sqrt3 * sqrt3 = 3 := Real.mul_self_sqrt (by norm_num)

/-- Python's `round` is the identity on integers. -/
theorem pyRound_intCast (n : ℤ) : pyRound (n : ℝ) = n := by
  unfold pyRound
  rw [Int.floor_intCast]
  norm_num

/-- `⌊24·√3⌋ = 41` (`24·√3 ≈ 41.569`). -/
theorem floor_24_sqrt3 : ⌊TILE_SIZE * sqrt3⌋ = 41 := by
  have h1 : (41 : ℝ) ≤ TILE_SIZE * sqrt3 := by
    have : (41 / 24 : ℝ) ≤ Real.sqrt 3 :=
      (Real.le_sqrt (by norm_num) (by norm_num)).mpr (by norm_num)
    unfold TILE_SIZE sqrt3
    nlinarith
  have h2 : TILE_SIZE * sqrt3 < 42 := by
    have : Real.sqrt 3 < 42 / 24 := (Real.sqrt_lt' (by norm_num)).mpr (by norm_num)
    unfold TILE_SIZE sqrt3
    nlinarith
  rw [Int.floor_eq_iff]
  refine ⟨by exact_mod_cast h1, by push_cast; linarith⟩

/-- `round(TILE_SIZE * SQRT3) = 42` (`24·√3 ≈ 41.569` rounds up). -/
theorem pyRound_24_sqrt3 : pyRound (TILE_SIZE * sqrt3) = 42 := by
  have hhalf : (1 : ℝ) / 2 < TILE_SIZE * sqrt3 - 41 := by
    have : (83 / 48 : ℝ) < Real.sqrt 3 :=
      (Real.lt_sqrt (by norm_num)).mpr (by norm_num)
    unfold TILE_SIZE sqrt3
    nlinarith
  unfold pyRound
  rw [floor_24_sqrt3]
  rw [if_neg (by push_cast; linarith), if_pos (by push_cast; linarith)]
  norm_num

/-- The width constant evaluates to `14·√3` in exact arithmetic. -/
theorem TILE_SIZE_W_eq : TILE_SIZE_W = 14 * sqrt3 := by
  unfold TILE_SIZE_W
  rw [pyRound_24_sqrt3]
  rw [div_eq_iff sqrt3_ne_zero]
  push_cast
  nlinarith [sqrt3_mul_self]

/-- Closed form of `Hx.into_px`: the pixel centre of `(q, r, z)` is
`(42q + 21r, 27r, z)`. -/
theorem into_px_closed (h : Hx) :
    h.into_px = ⟨42 * h.q + 21 * h.r, 27 * h.r, h.z⟩ := by
  unfold Hx.into_px ORIENTATION_PNTY
  rw [TILE_SIZE_W_eq]
  have hx : (sqrt3 * h.q + sqrt3 / 2 * h.r) * (14 * sqrt3) =
      42 * h.q + 21 * h.r := by
    linear_combination (14 * (h.q : ℝ) + 7 * (h.r : ℝ)) * sqrt3_mul_self
  have hy : ((0 : ℝ) * h.q + 3 / 2 * h.r) * (ISO_SCALE * TILE_SIZE) =
      27 * h.r := by
    unfold ISO_SCALE TILE_SIZE
    ring
  simp only [Px.mk.injEq]
  exact ⟨hx, hy, trivial⟩

/-- `hex_round` on already-integral coordinates returns them unchanged. -/
theorem hex_round_int (q r : ℤ) (z : ℤ) : hex_round (q : ℝ) (r : ℝ) z = ⟨q, r, z⟩ := by
  unfold hex_round hexRoundTriple
  rw [show (-(q : ℝ) - r) = ((-q - r : ℤ) : ℝ) by push_cast; ring]
  simp only [pyRound_intCast, sub_self, abs_zero, gt_iff_lt, lt_irrefl, and_self,
    if_false]

/-- Claim C1: for every hex `H = (q, r, z)`, `H.into_px().into_hx()`
returns exactly `H` — the pixel-centre round-trip preserves `q`, `r` and the
layer `z`. -/
theorem hex_pixel_roundtrip (h : Hx) : h.into_px.into_hx = h := by
  rw [into_px_closed]
  unfold Px.into_hx ORIENTATION_PNTY
  have haq : sqrt3 / 3 * ((42 * (h.q : ℝ) + 21 * h.r) / TILE_SIZE_W) +
      -1 / 3 * (27 * (h.r : ℝ) / (ISO_SCALE * TILE_SIZE)) = (h.q : ℝ) := by
    rw [TILE_SIZE_W_eq]
    unfold ISO_SCALE TILE_SIZE
    field_simp [sqrt3_ne_zero]
    ring
  have har : (0 : ℝ) * ((42 * (h.q : ℝ) + 21 * h.r) / TILE_SIZE_W) +
      2 / 3 * (27 * (h.r : ℝ) / (ISO_SCALE * TILE_SIZE)) = (h.r : ℝ) := by
    unfold ISO_SCALE TILE_SIZE
    field_simp
    ring
  simp only
  rw [haq, har, hex_round_int]

/-- Claim C5: for all real inputs `(aq, ar)` and any layer `az`, cube
rounding rounds `q`, `r`, `s = -aq-ar` independently and recomputes from the
other two an axis whose rounding error is maximal, so the corrected integer
triple sums to exactly 0, and the returned hex is `(q, r, az)` from that
triple. -/
theorem cube_rounding_valid (aq ar : ℝ) (az : ℤ) :
    ((hexRoundTriple aq ar).1 + (hexRoundTriple aq ar).2.1 +
        (hexRoundTriple aq ar).2.2 = 0) ∧
    hex_round aq ar az =
      ⟨(hexRoundTriple aq ar).1, (hexRoundTriple aq ar).2.1, az⟩ ∧
    ((hexRoundTriple aq ar =
        (-pyRound ar - pyRound (-aq - ar), pyRound ar, pyRound (-aq - ar)) ∧
      |(pyRound ar : ℝ) - ar| ≤ |(pyRound aq : ℝ) - aq| ∧
      |(pyRound (-aq - ar) : ℝ) - (-aq - ar)| ≤ |(pyRound aq : ℝ) - aq|) ∨
     (hexRoundTriple aq ar =
        (pyRound aq, -pyRound aq - pyRound (-aq - ar), pyRound (-aq - ar)) ∧
      |(pyRound aq : ℝ) - aq| ≤ |(pyRound ar : ℝ) - ar| ∧
      |(pyRound (-aq - ar) : ℝ) - (-aq - ar)| ≤ |(pyRound ar : ℝ) - ar|) ∨
     (hexRoundTriple aq ar =
        (pyRound aq, pyRound ar, -pyRound aq - pyRound ar) ∧
      |(pyRound aq : ℝ) - aq| ≤ |(pyRound (-aq - ar) : ℝ) - (-aq - ar)| ∧
      |(pyRound ar : ℝ) - ar| ≤ |(pyRound (-aq - ar) : ℝ) - (-aq - ar)|)) := by
  set q0 := pyRound aq with hq0
  set r0 := pyRound ar with hr0
  set s0 := pyRound (-aq - ar) with hs0
  set dq := |(q0 : ℝ) - aq| with hdq
  set dr := |(r0 : ℝ) - ar| with hdr
  set ds := |(s0 : ℝ) - (-aq - ar)| with hds
  have htrip : hexRoundTriple aq ar =
      if dq > dr ∧ dq > ds then (-r0 - s0, r0, s0)
      else if dr > ds then (q0, -q0 - s0, s0)
      else (q0, r0, -q0 - r0) := by
    unfold hexRoundTriple
    rfl
  refine ⟨?_, rfl, ?_⟩
  · rw [htrip]
    split_ifs <;> simp <;> ring
  · by_cases h1 : dq > dr ∧ dq > ds
    · exact Or.inl ⟨by rw [htrip, if_pos h1], le_of_lt h1.1, le_of_lt h1.2⟩
    · by_cases h2 : dr > ds
      · have hqr : dq ≤ dr := by
          by_contra hc
          push_neg at hc
          exact h1 ⟨hc, lt_trans h2 hc⟩
        exact Or.inr (Or.inl ⟨by rw [htrip, if_neg h1, if_pos h2], hqr, le_of_lt h2⟩)
      · push_neg at h2
        have hqs : dq ≤ ds := by
          rcases not_and_or.mp h1 with hc | hc
          · push_neg at hc
            exact le_trans hc h2
          · push_neg at hc
            exact hc
        exact Or.inr (Or.inr
          ⟨by rw [htrip, if_neg h1, if_neg (not_lt.mpr h2)], hqs, h2⟩)

/-! ## Theorems: movement resolution -/

/-- `TILE_RISE` evaluates to 12. -/
theorem TILE_RISE_eq : TILE_RISE = 12 := by
  unfold TILE_RISE ISO_SCALE TILE_SIZE_H TILE_SIZE
  norm_num

/-- The emitted actor record's air fields come from the air bookkeeping; the
collision scan only updates the pixel. -/
theorem tryMoveActor_air_fields (collide : ℝ → ℝ → TileT → Bool)
    (tiles : Hx → Option TileT) (state evtA : ActorState) (dt : ℝ) :
    (tryMoveActor collide tiles state evtA dt).air_time =
      (tryMoveAir tiles state evtA dt (tentativePx state evtA dt)).1.air_time ∧
    (tryMoveActor collide tiles state evtA dt).air_dz =
      (tryMoveAir tiles state evtA dt (tentativePx state evtA dt)).1.air_dz := by
  unfold tryMoveActor
  exact ⟨rfl, rfl⟩

/-- The air bookkeeping for a grounded actor (`air_time = None`,
`air_dz = 0`), not an explicit jump trigger, over a hex with no SOLID tile at
the tentative position: the actor goes airborne at the apex time
`vertical*(TILE_RISE*2)/speed` with `air_dz = 0`, the pixel untouched. -/
theorem tryMoveAir_grounded_fall (tiles : Hx → Option TileT)
    (state evtA : ActorState) (dt : ℝ) (newPx : Px)
    (hg : state.air_time = none) (hdz : state.air_dz = 0)
    (hev : evtA.air_time ≠ some 0)
    (hns : ∀ t, tiles newPx.into_hx = some t → isSolidB t = false) :
    tryMoveAir tiles state evtA dt newPx =
      ({evtA with air_time := some (state.vertical * (TILE_RISE * 2) / state.speed),
                  air_dz := 0}, newPx) := by
  unfold tryMoveAir
  rw [hg, hdz]
  simp only [ne_eq, true_and, not_false_iff, hev, if_pos, not_true_eq_false,
    false_and, if_neg, le_refl, if_true]
  cases h : tiles newPx.into_hx with
  | none => simp
  | some t => simp [hns t h]

/-- Claim C4 (amended): a grounded actor whose try-move resolution finds no
SOLID tile at the hex under its tentative new position goes airborne with
`air_dz = 0` and `air_time = vertical*(TILE_RISE*2)/speed` — the apex time of
the jump arc, so the descent starts immediately (not `air_time = 0`, which is
the explicit jump trigger's starting value). -/
theorem grounded_fall_transition (collide : ℝ → ℝ → TileT → Bool)
    (tiles : Hx → Option TileT) (state evtA : ActorState) (dt : ℝ)
    (hg : state.air_time = none) (hdz : state.air_dz = 0)
    (hev : evtA.air_time = none)
    (hns : ∀ t, tiles (tentativePx state evtA dt).into_hx = some t →
      isSolidB t = false) :
    (tryMoveActor collide tiles state evtA dt).air_time =
      some (state.vertical * (TILE_RISE * 2) / state.speed) ∧
    (tryMoveActor collide tiles state evtA dt).air_dz = 0 := by
  have hev' : evtA.air_time ≠ some 0 := by rw [hev]; simp
  have h := tryMoveAir_grounded_fall tiles state evtA dt
    (tentativePx state evtA dt) hg hdz hev' hns
  have hf := tryMoveActor_air_fields collide tiles state evtA dt
  rw [hf.1, hf.2, h]
  exact ⟨rfl, rfl⟩

/-- Witness for `grounded_fall_transition`: the concrete grounded actor over
an empty tile map goes airborne at `air_time = (6/5)*24/120`, `air_dz = 0`. -/
theorem grounded_fall_transition_witness :
    (tryMoveActor (fun _ _ _ => false) (fun _ => none) st4 st4 0).air_time =
      some (st4.vertical * (TILE_RISE * 2) / st4.speed) ∧
    (tryMoveActor (fun _ _ _ => false) (fun _ => none) st4 st4 0).air_dz = 0 :=
  grounded_fall_transition (fun _ _ _ => false) (fun _ => none) st4 st4 0
    rfl rfl rfl (fun t h => by simp at h)

/-- Claim C4 as stated is false on the code: for the concrete grounded actor
(`air_time = None`, `air_dz = 0`, `vertical = 6/5`, `speed = 120`) over an
empty tile map — so no SOLID tile under the tentative position — the emitted
`air_time` is `(6/5)*(TILE_RISE*2)/120 = 6/25`, not `0`. -/
theorem grounded_fall_air_time_not_zero :
    st4.air_time = none ∧ st4.air_dz = 0 ∧
    (∀ t, (fun _ : Hx => (none : Option TileT))
        (tentativePx st4 st4 0).into_hx = some t → isSolidB t = false) ∧
    (tryMoveActor (fun _ _ _ => false) (fun _ => none) st4 st4 0).air_time ≠
      some 0 := by
  refine ⟨rfl, rfl, fun t h => by simp at h, ?_⟩
  rw [(tryMoveActor_air_fields (fun _ _ _ => false) (fun _ => none) st4 st4 0).1,
    tryMoveAir_grounded_fall (fun _ => none) st4 st4 0 (tentativePx st4 st4 0)
      rfl rfl (by simp [st4]) (fun t h => by simp at h)]
  simp only [st4, TILE_RISE_eq, ne_eq, Option.some.injEq]
  norm_num

theorem Px_add_def (a b : Px) : a + b = ⟨a.x + b.x, a.y + b.y, a.z + b.z⟩ := rfl

theorem Px_sub_def (a b : Px) : a - b = ⟨a.x - b.x, a.y - b.y, a.z - b.z⟩ := rfl

/-- The pixel origin is the centre of the origin hex. -/
theorem into_hx_zero : (⟨0, 0, 0⟩ : Px).into_hx = ⟨0, 0, 0⟩ := by
  unfold Px.into_hx
  rw [show (⟨0, 0, 0⟩ : Px).x = 0 from rfl, show (⟨0, 0, 0⟩ : Px).y = 0 from rfl]
  simp only [zero_div, mul_zero, add_zero]
  have h := hex_round_int 0 0 0
  simpa using h

/-- Neighbors with no overlapping tile are skipped by the collision scan. -/
theorem collideScan_skip (collide : ℝ → ℝ → TileT → Bool)
    (tiles : Hx → Option TileT) (hx hhx : Hx) (hpx px : Px) (speed dt : ℝ)
    (np : Px) (l₁ l₂ : List Hx)
    (hpre : ∀ m ∈ l₁, ¬ overlapAt collide tiles hx np m) :
    collideScan collide tiles hx hhx hpx px speed dt np (l₁ ++ l₂) =
      collideScan collide tiles hx hhx hpx px speed dt np l₂ := by
  induction l₁ with
  | nil => rfl
  | cons m l ih =>
    have hm := hpre m (by simp)
    have hrest : ∀ x ∈ l, ¬ overlapAt collide tiles hx np x :=
      fun x hx' => hpre x (by simp [hx'])
    cases h : tiles (hx + m) with
    | none => simpa [collideScan, h] using ih hrest
    | some t =>
      have hcond : ¬(t.sprite = true ∧ collide np.x np.y t = true) := by
        intro hc
        exact hm ⟨t, h, hc.1, hc.2⟩
      simpa [collideScan, h, hcond] using ih hrest

/-- The scan stops at the first overlapping neighbor; when that neighbor is
the heading target (layer ignored), the pre-move `x, y` are kept. -/
theorem collideScan_head_heading (collide : ℝ → ℝ → TileT → Bool)
    (tiles : Hx → Option TileT) (hx hhx : Hx) (hpx px : Px) (speed dt : ℝ)
    (np : Px) (nb : Hx) (t : TileT) (rest : List Hx)
    (ht : tiles (hx + nb) = some t) (hs : t.sprite = true)
    (hc : collide np.x np.y t = true)
    (hhead : hhx = ⟨t.hx.q, t.hx.r, hhx.z⟩) :
    collideScan collide tiles hx hhx hpx px speed dt np (nb :: rest) =
      ⟨px.x, px.y, np.z⟩ := by
  simp [collideScan, ht, hs, hc, ← hhead]

/-- Claim C6: when the first overlapping neighbor found by the collision scan
is exactly the heading target (layer difference ignored), the emitted pixel
keeps the pre-move `x` and `y`; only `z` can differ. -/
theorem heading_wall_cancels_xy (collide : ℝ → ℝ → TileT → Bool)
    (tiles : Hx → Option TileT) (state evtA : ActorState) (dt : ℝ)
    (pre rest : List Hx) (nb : Hx) (t : TileT)
    (hsplit : scanList state.height
        (max 0 ⌊(tryMoveAir tiles state evtA dt
          (tentativePx state evtA dt)).1.air_dz⌋) = pre ++ nb :: rest)
    (hpre : ∀ m ∈ pre, ¬ overlapAt collide tiles state.px.into_hx
        (tryMoveAir tiles state evtA dt (tentativePx state evtA dt)).2 m)
    (ht : tiles (state.px.into_hx + nb) = some t)
    (hs : t.sprite = true)
    (hc : collide (tryMoveAir tiles state evtA dt (tentativePx state evtA dt)).2.x
        (tryMoveAir tiles state evtA dt (tentativePx state evtA dt)).2.y t = true)
    (hq : t.hx.q = (state.px.into_hx + evtA.heading).q)
    (hr : t.hx.r = (state.px.into_hx + evtA.heading).r) :
    (tryMoveActor collide tiles state evtA dt).px.x = state.px.x ∧
    (tryMoveActor collide tiles state evtA dt).px.y = state.px.y := by
  have hhead : state.px.into_hx + evtA.heading =
      (⟨t.hx.q, t.hx.r, (state.px.into_hx + evtA.heading).z⟩ : Hx) := by
    rw [hq, hr]
  unfold tryMoveActor
  simp only
  rw [hsplit,
    collideScan_skip collide tiles _ _ _ _ _ _ _ pre _ hpre,
    collideScan_head_heading collide tiles _ _ _ _ _ _ _ nb t rest ht hs hc hhead]
  exact ⟨rfl, rfl⟩

/-- In the Scenario B configuration the air bookkeeping is the identity:
the actor is airborne (`air_time = 1`) with `0 < air_dz = 1/2 ≤ 1`. -/
theorem tryMoveAir_st6 (dt : ℝ) (np : Px) :
    tryMoveAir tiles6 st6 st6 dt np = (st6, np) := by
  unfold tryMoveAir st6
  norm_num
  simp

theorem floor_half : ⌊(1/2 : ℝ)⌋ = 0 := by
  rw [Int.floor_eq_iff]
  norm_num

/-- Witness for `heading_wall_cancels_xy`: the airborne actor at the origin
heading `(1, 0)` walks straight into the SOLID tile at `(1, 0, 1)` — the first
neighbor scanned — and its `x, y` stay put. -/
theorem heading_wall_cancels_xy_witness :
    (tryMoveActor (fun _ _ _ => true) tiles6 st6 st6 (1/10)).px.x = st6.px.x ∧
    (tryMoveActor (fun _ _ _ => true) tiles6 st6 st6 (1/10)).px.y = st6.px.y := by
  have h0 : st6.px.into_hx = (⟨0, 0, 0⟩ : Hx) := by
    rw [show st6.px = (⟨0, 0, 0⟩ : Px) from rfl, into_hx_zero]
  refine heading_wall_cancels_xy (fun _ _ _ => true) tiles6 st6 st6 (1/10)
    [] [⟨1,-1,1⟩, ⟨0,-1,1⟩, ⟨-1,0,1⟩, ⟨-1,1,1⟩, ⟨0,1,1⟩] ⟨1,0,1⟩ t6
    ?_ (by simp) ?_ rfl rfl ?_ ?_
  · rw [tryMoveAir_st6]
    rw [show (st6, tentativePx st6 st6 (1/10)).1.air_dz = (1/2 : ℝ) from rfl]
    rw [floor_half]
    decide
  · rw [h0]
    decide
  · rw [h0]
    decide
  · rw [h0]
    decide

/-- With no tiles anywhere the collision scan never fires. -/
theorem collideScan_no_tiles (collide : ℝ → ℝ → TileT → Bool) (hx hhx : Hx)
    (hpx px : Px) (speed dt : ℝ) (np : Px) (l : List Hx) :
    collideScan collide (fun _ => none) hx hhx hpx px speed dt np l = np := by
  induction l with
  | nil => rfl
  | cons a l ih => simpa [collideScan] using ih

theorem dirCos_pos_x (x : ℝ) (hx : 0 < x) : dirCos 0 x = 1 := by
  unfold dirCos
  rw [if_neg (fun h => absurd h.1 hx.ne')]
  rw [show x ^ 2 + (0 : ℝ) ^ 2 = x ^ 2 by ring, Real.sqrt_sq hx.le,
    div_self hx.ne']

theorem dirSin_pos_x (x : ℝ) (hx : 0 < x) : dirSin 0 x = 0 := by
  unfold dirSin
  rw [if_neg (fun h => absurd h.1 hx.ne')]
  exact zero_div _

/-- The pixel centre of hex `(1, 0, 0)` is `(42, 0, 0)`. -/
theorem into_px_one_zero : (⟨1, 0, 0⟩ : Hx).into_px = (⟨42, 0, 0⟩ : Px) := by
  rw [into_px_closed]
  simp only [Px.mk.injEq]
  refine ⟨by push_cast; norm_num, by push_cast; norm_num, trivial⟩

/-- Scenario A's tentative pixel: from the origin toward hex `(1, 0, 0)` at
speed 120 for `dt = 1/10`, the step lands at `(12, 0, 0)`. -/
theorem tentativePx_st7 : tentativePx st7 st7 (1/10) = (⟨12, 0, 0⟩ : Px) := by
  have h0 : st7.px.into_hx = (⟨0, 0, 0⟩ : Hx) := by
    rw [show st7.px = (⟨0, 0, 0⟩ : Px) from rfl, into_hx_zero]
  have hh : st7.px.into_hx + st7.heading = (⟨1, 0, 0⟩ : Hx) := by
    rw [h0]
    decide
  simp only [tentativePx]
  rw [hh, into_px_one_zero, Px_sub_def,
    show st7.px = (⟨0, 0, 0⟩ : Px) from rfl]
  simp only
  norm_num
  rw [dirCos_pos_x 42 (by norm_num), dirSin_pos_x 42 (by norm_num), Px_add_def]
  simp only [Px.mk.injEq]
  refine ⟨?_, ?_, rfl⟩
  · rw [show st7.speed = (120 : ℝ) from rfl]
    norm_num
  · norm_num

/-- Scenario A's emitted pixel is `(12, 0, 0)`. -/
theorem tryMoveActor_st7_px :
    (tryMoveActor (fun _ _ _ => false) (fun _ => none) st7 st7 (1/10)).px =
      (⟨12, 0, 0⟩ : Px) := by
  unfold tryMoveActor
  simp only
  rw [collideScan_no_tiles,
    tryMoveAir_grounded_fall (fun _ => none) st7 st7 (1/10)
      (tentativePx st7 st7 (1/10)) rfl rfl (by simp [st7]) (fun t h => by simp at h)]
  exact tentativePx_st7

/-- Claim C7: an actor at hex `(0,0,0)` heading `(1,0,0)`, speed 120,
`dt = 0.1`, with no obstacles: the emitted pixel is `(12, 0, 0)` — on the ray
from the origin hex's centre toward hex `(1,0,0)`'s centre `(42, 0, 0)`,
displaced by `120·0.1 = 12` pixels (the `y` component of the displacement
carrying the extra `ISO_SCALE` factor). -/
theorem scenario_a_straight_step :
    (tryMoveActor (fun _ _ _ => false) (fun _ => none) st7 st7 (1/10)).px =
      (⟨12, 0, 0⟩ : Px) ∧
    (st7.px.into_hx + st7.heading).into_px = (⟨42, 0, 0⟩ : Px) ∧
    (∃ c : ℝ, 0 ≤ c ∧
      (tryMoveActor (fun _ _ _ => false) (fun _ => none) st7 st7 (1/10)).px.x -
          st7.px.x =
        c * ((st7.px.into_hx + st7.heading).into_px.x - st7.px.x) ∧
      (tryMoveActor (fun _ _ _ => false) (fun _ => none) st7 st7 (1/10)).px.y -
          st7.px.y =
        c * ((st7.px.into_hx + st7.heading).into_px.y - st7.px.y)) ∧
    ((tryMoveActor (fun _ _ _ => false) (fun _ => none) st7 st7 (1/10)).px.x -
        st7.px.x) ^ 2 +
      (((tryMoveActor (fun _ _ _ => false) (fun _ => none) st7 st7 (1/10)).px.y -
        st7.px.y) / ISO_SCALE) ^ 2 = (120 * (1/10)) ^ 2 := by
  have hh : st7.px.into_hx + st7.heading = (⟨1, 0, 0⟩ : Hx) := by
    rw [show st7.px = (⟨0, 0, 0⟩ : Px) from rfl, into_hx_zero]
    decide
  have hpx := tryMoveActor_st7_px
  rw [hpx, hh, into_px_one_zero, show st7.px = (⟨0, 0, 0⟩ : Px) from rfl]
  refine ⟨rfl, rfl, ⟨2/7, by norm_num, by norm_num, by norm_num⟩, ?_⟩
  unfold ISO_SCALE
  norm_num

end HexMMO
